import Mathlib

/-!
Shallow embedding of `src/utils/cepAPI.js` (class `CepAPI`), a client
utility that validates, formats and looks up Brazilian postal codes (CEP)
and writes the resulting address into a web form.

Conventions of the embedding:
* JS strings are Lean `String`s; `str.replace(/\D/g, '')` becomes a filter
  on the character list.
* The DOM is an association list from element id to an `Element` record
  (`value`, `textContent`, `display` mirror the properties the code touches).
* `fetch` is modelled by a caller-supplied `Response` (the response the
  mocked network would give); a trace records how many times fetch was
  invoked, what was logged to `console.error`, which callbacks fired and
  which messages were passed to `mostrarErro`.
* JS method dispatch through `this` is modelled by an explicit method
  table: `this.m(x)` first looks `m` up among the class's methods and
  raises a `TypeError` when it is absent.  This matters because the block
  comment opened on line 42 of the source is only closed on line 54, so
  the text of `validarCep` (lines 46-48) is commented out and the class
  that the file actually declares has no `validarCep` method.
-/

/-- `cep.replace(/\D/g, '')`: keep only the decimal digits. -/
def stripNonDigits (s : String) : String :=
  ⟨s.data.filter Char.isDigit⟩

/-- The body of `validarCep` as written on lines 46-48 of the source
(`/^\d{8}$/.test(cep)`): the whole input is exactly 8 decimal digits.
In the shipped file this text sits inside the block comment opened on
line 42, so the running class has no such method; the definition is the
embedding of the method text itself. -/
def validarCep (cep : String) : Bool :=
  cep.data.length == 8 && cep.data.all Char.isDigit

/-- One step of `cepLimpo.replace(/(\d{5})(\d{3})/, '$1-$2')`: scan for the
first position where 8 consecutive digits start; replace that match by the
first five digits, a hyphen and the next three digits, leaving everything
before and after the match in place.  A string with no such position is
returned unchanged. -/
def replace8 : List Char → List Char
  | [] => []
  | c :: cs =>
    if 8 ≤ (c :: cs).length && ((c :: cs).take 8).all Char.isDigit then
      (c :: cs).take 5 ++ '-' :: ((c :: cs).drop 5).take 3 ++ (c :: cs).drop 8
    else
      c :: replace8 cs

/-- `formatarCep` (lines 55-58): strip the non-digits, then apply the
unanchored replacement `/(\d{5})(\d{3})/ → '$1-$2'`. -/
def formatarCep (cep : String) : String :=
  ⟨replace8 (stripNonDigits cep).data⟩

/-- A DOM element, restricted to the properties the code reads or writes. -/
structure Element where
  value : String
  textContent : String
  display : String
  deriving DecidableEq, Repr

/-- The document: an association list from element id to element.
`document.getElementById` is `assocGet`. -/
def Dom := List (String × Element)

instance : DecidableEq Dom := inferInstanceAs (DecidableEq (List (String × Element)))

/-- First-match association-list lookup (JS object property access /
`document.getElementById`). -/
def assocGet {α : Type} : List (String × α) → String → Option α
  | [], _ => none
  | p :: l, k => if p.1 = k then some p.2 else assocGet l k

/-- Mutate the element with the given id in place (all entries with that
id are updated; ids are unique in a real document). -/
def updateElem (d : Dom) (id : String) (f : Element → Element) : Dom :=
  d.map fun p => if p.1 = id then (p.1, f p.2) else p

/-- `elemento.value = v`. -/
def setValue (d : Dom) (id v : String) : Dom :=
  updateElem d id fun e => { e with value := v }

/-- `elemento.textContent = t`. -/
def setText (d : Dom) (id t : String) : Dom :=
  updateElem d id fun e => { e with textContent := t }

/-- `elemento.style.display = v`. -/
def setDisplay (d : Dom) (id v : String) : Dom :=
  updateElem d id fun e => { e with display := v }

/-- A JS address object / decoded JSON body: field name to string value. -/
def Record := List (String × String)

instance : DecidableEq Record := inferInstanceAs (DecidableEq (List (String × String)))

/-- JS truthiness of `obj[k]` for a string-valued object: the key must be
present and its value must not be the empty string. -/
def truthyStr : Option String → Bool
  | none => false
  | some v => v ≠ ""

/-- `camposPadrao` (lines 66-72): the default field binding, identity on
the five logical fields, in the object's insertion order. -/
def camposPadrao : List (String × String) :=
  [("cidade", "cidade"), ("bairro", "bairro"), ("rua", "rua"),
   ("estado", "estado"), ("cep", "cep")]

/-- `{ ...base, ...ov }`: keys of `base` in order, each taking `ov`'s value
when `ov` also has the key, followed by the keys of `ov` that are new. -/
def mergeObj (base ov : List (String × String)) : List (String × String) :=
  base.map (fun p => (p.1, (assocGet ov p.1).getD p.2))
    ++ ov.filter fun p => (assocGet base p.1) = none

/-- The body of the `forEach` in `preencherEndereco` (lines 77-82): look
the target element up; when it exists and the record's field is truthy,
write the record's value into the element's `value`. -/
def preencherStep (dadosCep : Record) (d : Dom) (p : String × String) : Dom :=
  if (assocGet d p.2).isSome && truthyStr (assocGet dadosCep p.1) then
    setValue d p.2 ((assocGet dadosCep p.1).getD "")
  else d

/-- `preencherEndereco` (lines 65-83): iterate the step over the keys of
the merged binding, in the object's key order. -/
def preencherEndereco (dadosCep : Record) (campos : List (String × String))
    (dom : Dom) : Dom :=
  (mergeObj camposPadrao campos).foldl (preencherStep dadosCep) dom

/-- The value the loop of `preencherEndereco` would leave in the element
with the given id, assuming the element exists: the record's value for
the last pair of the binding list that targets this id and whose record
field is truthy; `none` when no pair writes to it. -/
def lastWrite (dadosCep : Record) (id : String) :
    List (String × String) → Option String
  | [] => none
  | p :: ps =>
    match lastWrite dadosCep id ps with
    | some v => some v
    | none =>
      if p.2 = id then
        if truthyStr (assocGet dadosCep p.1) then assocGet dadosCep p.1
        else none
      else none

/-- A JS error value: either an `Error(msg)` thrown by the code itself, or
the `TypeError` raised when a missing method (named by the field) is
called through `this`. -/
inductive CepError where
  | jsError (msg : String)
  | typeError (method : String)
  deriving DecidableEq, Repr

/-- `error.message`: the explicit message of an `Error`, or the engine's
"this.m is not a function" text for a `TypeError` (V8 wording). -/
def CepError.message : CepError → String
  | .jsError m => m
  | .typeError m => "this." ++ m ++ " is not a function"

/-- The HTTP response the (mocked) network would give to the one fetch.
`ok` is the fetch API's `response.ok`: status in the 2xx range. -/
structure Response where
  status : Nat
  body : Record

def Response.ok (r : Response) : Bool :=
  200 ≤ r.status && r.status < 300

/-- Everything a call can observe or mutate: the document plus a trace of
fetch invocations, `console.error` logs, callback invocations and
`mostrarErro` calls. -/
structure RunState where
  dom : Dom
  fetchCalls : Nat
  consoleErrors : List CepError
  successCalls : List Record
  errorCalls : List CepError
  mostrarErroCalls : List String

/-- The methods of class `CepAPI` as the file parses.  The block comment
opened on line 42 is closed only by the `*/` on line 54, so lines 42-54 —
including the whole text of `validarCep` — are one comment and the class
body continues at `formatarCep` (line 55).  `validarCep` is therefore not
among the class's methods. -/
def cepAPIMethods : List String :=
  ["constructor", "buscarCep", "formatarCep", "preencherEndereco",
   "buscarEPreencher", "mostrarErro", "removerErro"]

/-- Modelled from the spec: the method table the doc comments of the file
intend, in which the `validarCep` text of lines 46-48 is an actual method
(i.e. the missing `*/` on line 45 is supplied). -/
def cepAPIMethodsIntended : List String :=
  "validarCep" :: cepAPIMethods

/-- The `try` body of `buscarCep` (lines 14-34): strip the input, call
`this.validarCep` (a `TypeError` when the method table lacks it), throw
on an invalid code, otherwise fetch once and interpret the response. -/
def buscarCepTry (methods : List String) (cep : String) (resp : Response)
    (st : RunState) : Except CepError Record × RunState :=
  let cepLimpo := stripNonDigits cep
  if ¬ methods.contains "validarCep" then
    (.error (.typeError "validarCep"), st)
  else if ¬ validarCep cepLimpo then
    (.error (.jsError "CEP deve ter 8 dígitos"), st)
  else
    let st := { st with fetchCalls := st.fetchCalls + 1 }
    if ¬ resp.ok then
      if resp.status = 404 then
        (.error (.jsError "CEP não encontrado"), st)
      else
        (.error (.jsError ("Erro na API: " ++ toString resp.status)), st)
    else
      (.ok resp.body, st)

/-- `buscarCep` (lines 13-40): the `try` body wrapped in the `catch` that
logs the error to `console.error` and re-throws it. -/
def buscarCep (methods : List String) (cep : String) (resp : Response)
    (st : RunState) : Except CepError Record × RunState :=
  match buscarCepTry methods cep resp st with
  | (.error e, st') =>
      (.error e, { st' with consoleErrors := st'.consoleErrors ++ [e] })
  | ok => ok

/-- Insert an entry right after the first entry with the given key,
leaving the list unchanged when the key is absent
(`campoCep.parentNode.insertBefore(elementoErro, campoCep.nextSibling)`). -/
def insertAfter (key : String) (entry : String × Element) : Dom → Dom
  | [] => []
  | p :: d => if p.1 = key then p :: entry :: d else p :: insertAfter key entry d

/-- `mostrarErro` (lines 119-145): reuse the element with id `cep-erro` if
it exists; otherwise create a fresh `div` and, when a `cep` element
exists, insert it right after that element (when no `cep` element exists
the fresh node stays detached and the document is unchanged).  The node's
text is set to the message and it is made visible.  The 5-second
auto-hide timer is a deferred action outside the call and is not part of
the document transformation. -/
def mostrarErro (mensagem : String) (dom : Dom) : Dom :=
  let dom' :=
    if (assocGet dom "cep-erro").isSome then dom
    else if (assocGet dom "cep").isSome then
      insertAfter "cep" ("cep-erro", ⟨"", "", ""⟩) dom
    else dom
  setDisplay (setText dom' "cep-erro" mensagem) "cep-erro" "block"

/-- Whether `callback && typeof callback.error === 'function'` /
`typeof callback.success === 'function'` hold for the caller-supplied
callback object. -/
structure Callback where
  hasSuccess : Bool
  hasError : Bool

def cbHasError : Option Callback → Bool
  | none => false
  | some c => c.hasError

def cbHasSuccess : Option Callback → Bool
  | none => false
  | some c => c.hasSuccess

/-- `buscarEPreencher` (lines 91-113): look the code up; on success fill
the form and invoke the success callback when supplied, returning the
data; on failure invoke the error callback when supplied, otherwise fall
back to `mostrarErro(error.message)`, and re-throw the error. -/
def buscarEPreencher (methods : List String) (cep : String)
    (campos : List (String × String)) (callback : Option Callback)
    (resp : Response) (st : RunState) : Except CepError Record × RunState :=
  match buscarCep methods cep resp st with
  | (.ok dados, st') =>
      let st' := { st' with dom := preencherEndereco dados campos st'.dom }
      let st' :=
        if cbHasSuccess callback then
          { st' with successCalls := st'.successCalls ++ [dados] }
        else st'
      (.ok dados, st')
  | (.error e, st') =>
      let st' :=
        if cbHasError callback then
          { st' with errorCalls := st'.errorCalls ++ [e] }
        else
          { st' with dom := mostrarErro e.message st'.dom,
                     mostrarErroCalls := st'.mostrarErroCalls ++ [e.message] }
      (.error e, st')

/-- The JSON body of the spec's mocked 200 response. -/
def exampleBody : Record :=
  [("cep", "01310-100"), ("state", "SP"), ("city", "São Paulo"),
   ("neighborhood", "Bela Vista"), ("street", "Avenida Paulista")]

/-- A concrete starting state with one form field, used to instantiate the
universally quantified theorems about failing calls. -/
def stW : RunState := ⟨[("cidade", ⟨"x", "t", "d"⟩)], 0, [], [], [], []⟩

/-! Helper lemmas about the document model. -/

theorem assocGet_updateElem (d : Dom) (k : String) (f : Element → Element)
    (id : String) :
    assocGet (updateElem d k f) id =
      if id = k then (assocGet d id).map f else assocGet d id := by
  induction d with
  | nil => simp [updateElem, assocGet]
  | cons p d ih =>
    simp only [updateElem, List.map_cons] at ih ⊢
    by_cases h1 : p.1 = id
    · subst h1
      by_cases h2 : p.1 = k <;> simp [assocGet, h2]
    · by_cases h2 : p.1 = k
      · have h3 : ¬ k = id := fun hh => h1 (h2.trans hh)
        have h4 : ¬ id = k := fun hh => h3 hh.symm
        simp [assocGet, h1, h2, h3, h4, ih]
      · simp [assocGet, h1, h2, ih]

theorem assocGet_insertAfter_ne (key : String) (entry : String × Element)
    (d : Dom) (id : String) (h : id ≠ entry.1) :
    assocGet (insertAfter key entry d) id = assocGet d id := by
  induction d with
  | nil => simp [insertAfter]
  | cons p d ih =>
    by_cases h1 : p.1 = key
    · simp only [insertAfter, if_pos h1]
      by_cases h2 : p.1 = id
      · simp [assocGet, h2]
      · simp [assocGet, h2, show ¬ entry.1 = id from fun hh => h hh.symm]
    · simp only [insertAfter, if_neg h1]
      by_cases h2 : p.1 = id
      · simp [assocGet, h2]
      · simp [assocGet, h2, ih]

theorem mostrarErro_value (m : String) (dom : Dom) (id : String)
    (h : (assocGet dom id).isSome) :
    (assocGet (mostrarErro m dom) id).map Element.value =
      (assocGet dom id).map Element.value := by
  unfold mostrarErro setDisplay setText
  by_cases hc : (assocGet dom "cep-erro").isSome
  · rw [if_pos hc]
    simp only [assocGet_updateElem]
    by_cases h2 : id = "cep-erro"
    · subst h2
      simp only [if_pos rfl, Option.map_map]
      cases assocGet dom "cep-erro" <;> rfl
    · simp [h2]
  · have hne : ¬ id = "cep-erro" := fun hh => hc (hh ▸ h)
    rw [if_neg hc]
    by_cases hcep : (assocGet dom "cep").isSome
    · rw [if_pos hcep]
      simp only [assocGet_updateElem, hne, if_neg hne,
        assocGet_insertAfter_ne "cep" ("cep-erro", ⟨"", "", ""⟩) dom id hne]
      simp
    · rw [if_neg hcep]
      simp only [assocGet_updateElem, if_neg hne]

theorem buscarCepTry_state (methods : List String) (cep : String)
    (resp : Response) (st : RunState) :
    (buscarCepTry methods cep resp st).2.dom = st.dom ∧
    (buscarCepTry methods cep resp st).2.successCalls = st.successCalls ∧
    (buscarCepTry methods cep resp st).2.errorCalls = st.errorCalls ∧
    (buscarCepTry methods cep resp st).2.mostrarErroCalls = st.mostrarErroCalls := by
  unfold buscarCepTry
  repeat' split
  all_goals try simp
  all_goals by_cases hv : validarCep (stripNonDigits cep) = false <;> simp [hv]

theorem buscarCep_state (methods : List String) (cep : String)
    (resp : Response) (st : RunState) :
    (buscarCep methods cep resp st).2.dom = st.dom ∧
    (buscarCep methods cep resp st).2.successCalls = st.successCalls ∧
    (buscarCep methods cep resp st).2.errorCalls = st.errorCalls ∧
    (buscarCep methods cep resp st).2.mostrarErroCalls = st.mostrarErroCalls := by
  have h := buscarCepTry_state methods cep resp st
  unfold buscarCep
  rcases hb : buscarCepTry methods cep resp st with ⟨r, st2⟩
  rw [hb] at h
  cases r <;> simp_all

theorem assocGet_setValue (d : Dom) (k v : String) (id : String) :
    assocGet (setValue d k v) id =
      if id = k then (assocGet d id).map (fun e => { e with value := v })
      else assocGet d id := by
  unfold setValue; rw [assocGet_updateElem]

theorem truthy_exists (o : Option String) (h : truthyStr o = true) :
    ∃ v, o = some v := by
  cases o with
  | none => simp [truthyStr] at h
  | some v => exact ⟨v, rfl⟩

theorem assocGet_preencherLoop (dadosCep : Record)
    (ps : List (String × String)) (d : Dom) (id : String) :
    assocGet (ps.foldl (preencherStep dadosCep) d) id =
      (assocGet d id).map fun e =>
        match lastWrite dadosCep id ps with
        | some v => { e with value := v }
        | none => e := by
  induction ps generalizing d with
  | nil =>
    simp only [List.foldl_nil, lastWrite]
    cases hx : assocGet d id <;> simp [hx]
  | cons p ps ih =>
    rw [List.foldl_cons, ih]
    simp only [lastWrite]
    cases hL : lastWrite dadosCep id ps with
    | some v =>
      simp only [hL]
      by_cases h2 : truthyStr (assocGet dadosCep p.1)
      · by_cases h1 : (assocGet d p.2).isSome
        · simp only [preencherStep, h1, h2, Bool.and_self, if_true]
          rw [assocGet_setValue]
          by_cases h3 : id = p.2
          · rw [if_pos h3]
            cases hx : assocGet d id <;> simp [hx]
          · rw [if_neg h3]
        · simp [preencherStep, h1]
      · simp [preencherStep, h2]
    | none =>
      simp only [hL]
      by_cases h2 : truthyStr (assocGet dadosCep p.1)
      · by_cases h1 : (assocGet d p.2).isSome
        · simp only [preencherStep, h1, h2, Bool.and_self, if_true]
          rw [assocGet_setValue]
          by_cases h3 : id = p.2
          · subst h3
            obtain ⟨w, hw⟩ := truthy_exists _ h2
            simp only [if_pos rfl, h2, hw, if_true]
            cases hx : assocGet d p.2 <;> simp [hx]
          · rw [if_neg h3]
            have h4 : ¬ p.2 = id := fun hh => h3 hh.symm
            simp only [if_neg h4]
        · by_cases h3 : p.2 = id
          · have hnone : assocGet d id = none := by
              rw [← h3]
              revert h1
              cases hx : assocGet d p.2 <;> simp [hx]
            simp [preencherStep, h1, hnone]
          · have h1f : (assocGet d p.2).isSome = false := by
              revert h1
              cases assocGet d p.2 <;> simp
            simp only [preencherStep, h1f, Bool.false_and, Bool.false_eq_true,
              if_false, if_neg h3]
      · have h2f : truthyStr (assocGet dadosCep p.1) = false := by
          revert h2
          cases truthyStr (assocGet dadosCep p.1) <;> simp
        simp only [preencherStep, h2f, Bool.and_false, Bool.false_eq_true, if_false]
        by_cases h3 : p.2 = id
        · simp only [if_pos h3, h2f, Bool.false_eq_true, if_false]
        · simp only [if_neg h3]

theorem stripNonDigits_all (s : String) :
    ∀ c ∈ (stripNonDigits s).data, c.isDigit := by
  intro c hc
  simp only [stripNonDigits, List.mem_filter] at hc
  exact hc.2

theorem replace8_digits (l : List Char) (hd : ∀ c ∈ l, c.isDigit) :
    replace8 l = if 8 ≤ l.length then l.take 5 ++ '-' :: l.drop 5 else l := by
  induction l with
  | nil => simp [replace8]
  | cons c cs ih =>
    have hall : ((c :: cs).take 8).all Char.isDigit = true := by
      rw [List.all_eq_true]
      intro x hx
      exact hd x (List.mem_of_mem_take hx)
    by_cases hlen : 8 ≤ (c :: cs).length
    · rw [if_pos hlen, replace8,
        if_pos (by rw [Bool.and_eq_true, decide_eq_true_eq]; exact ⟨hlen, hall⟩)]
      have h8 : (c :: cs).drop 8 = ((c :: cs).drop 5).drop 3 := by
        rw [List.drop_drop]
      rw [h8]
      simp only [List.cons_append, List.append_assoc]
      rw [List.take_append_drop]
    · rw [if_neg hlen, replace8,
        if_neg (by rw [Bool.and_eq_true, decide_eq_true_eq]; exact fun hh => hlen hh.1)]
      rw [ih fun x hx => hd x (List.mem_cons_of_mem c hx),
        if_neg (by simp only [List.length_cons] at hlen; omega)]

/-- The response-interpretation code of `buscarCep` (lines 33-34) as the
doc comments intend it: once the method table has `validarCep`, a valid
code and a 2xx response make `buscarCep` return the decoded body
verbatim. -/
theorem buscarCep_ok_verbatim (cep : String) (resp : Response) (st : RunState)
    (hv : validarCep (stripNonDigits cep) = true) (hok : resp.ok = true) :
    (buscarCep cepAPIMethodsIntended cep resp st).1 = .ok resp.body := by
  unfold buscarCep buscarCepTry
  simp [hok, hv, (show ("validarCep" ∈ cepAPIMethodsIntended) by decide)]

/-- Claim C1: for every input string, `buscarCep` raises an error before
performing any network request: the class defines no `validarCep` method
(the block comment opened at line 42 is not closed until line 54), so the
call `this.validarCep(cepLimpo)` raises a `TypeError`, which is logged to
`console.error` and re-raised; the fetch on line 24 is never invoked for
any input. -/
theorem claim_C1 (cep : String) (resp : Response) (st : RunState) :
    cepAPIMethods.contains "validarCep" = false ∧
    buscarCep cepAPIMethods cep resp st =
      (.error (.typeError "validarCep"),
       { st with consoleErrors := st.consoleErrors ++ [.typeError "validarCep"] }) ∧
    (buscarCep cepAPIMethods cep resp st).2.fetchCalls = st.fetchCalls :=
  ⟨rfl, rfl, rfl⟩

/-- Claim C2, counterexample: the claim says `validarCep` itself strips
non-digit characters and therefore accepts "01310-100"; in the source the
stripping happens in the caller (line 16) and `validarCep`'s regex
`/^\d{8}$/` rejects "01310-100", even though its stripped form has 8
digits. -/
theorem claim_C2_counterexample :
    validarCep "01310-100" = false ∧
    stripNonDigits "01310-100" = "01310100" ∧
    validarCep (stripNonDigits "01310-100") = true := by decide

/-- Claim C2 as amended: `validarCep` performs no stripping and returns
true iff its input is already exactly 8 decimal digits; it is pure, and
accepts "01310100" while rejecting "01310-100", "1234567" and
"abcdefgh". -/
theorem claim_C2 :
    (∀ s : String, validarCep s = true ↔
      (s.data.length = 8 ∧ ∀ c ∈ s.data, c.isDigit)) ∧
    validarCep "01310100" = true ∧ validarCep "01310-100" = false ∧
    validarCep "1234567" = false ∧ validarCep "abcdefgh" = false := by
  refine ⟨fun s => ?_, by decide, by decide, by decide, by decide⟩
  simp [validarCep, List.all_eq_true]

/-- Witness for claim C2 at the concrete input "20040030". -/
theorem claim_C2_witness :
    validarCep "20040030" = true ∧ ("20040030" : String).data.length = 8 :=
  ⟨(claim_C2.1 "20040030").mpr (by decide), by decide⟩

/-- Claim C3, evaluated: `buscarCep("123")` does fail before any fetch
(fetchCalls stays 0), but with the `TypeError` from the missing
`validarCep` method, not with the validation error; the second conjunct
shows that with the intended method table the very same call raises the
validation error the claim describes, still with zero fetches. -/
theorem claim_C3_eval :
    buscarCep cepAPIMethods "123" ⟨200, []⟩ ⟨[], 0, [], [], [], []⟩ =
      (.error (.typeError "validarCep"),
       ⟨[], 0, [.typeError "validarCep"], [], [], []⟩) ∧
    buscarCep cepAPIMethodsIntended "123" ⟨200, []⟩ ⟨[], 0, [], [], [], []⟩ =
      (.error (.jsError "CEP deve ter 8 dígitos"),
       ⟨[], 0, [.jsError "CEP deve ter 8 dígitos"], [], [], []⟩) :=
  ⟨rfl, rfl⟩

/-- Claim C4, evaluated: for the valid code "01310100" with a mocked 404
(and 500) response, the shipped code raises the `TypeError` before ever
fetching, so the 404/500 mapping of lines 26-31 is unreachable; with the
intended method table the same calls produce exactly the not-found error
for 404 and the status-carrying service error for 500, each after one
fetch. -/
theorem claim_C4_eval :
    buscarCep cepAPIMethods "01310100" ⟨404, []⟩ ⟨[], 0, [], [], [], []⟩ =
      (.error (.typeError "validarCep"),
       ⟨[], 0, [.typeError "validarCep"], [], [], []⟩) ∧
    buscarCep cepAPIMethodsIntended "01310100" ⟨404, []⟩ ⟨[], 0, [], [], [], []⟩ =
      (.error (.jsError "CEP não encontrado"),
       ⟨[], 1, [.jsError "CEP não encontrado"], [], [], []⟩) ∧
    buscarCep cepAPIMethodsIntended "01310100" ⟨500, []⟩ ⟨[], 0, [], [], [], []⟩ =
      (.error (.jsError "Erro na API: 500"),
       ⟨[], 1, [.jsError "Erro na API: 500"], [], [], []⟩) :=
  ⟨rfl, rfl, rfl⟩

/-- Claim C5, evaluated: for the valid code "01310100" with a mocked 200
response carrying the spec's JSON body, the shipped code raises the
`TypeError` before ever fetching and never returns the body; with the
intended method table the same call returns the decoded body verbatim. -/
theorem claim_C5_eval :
    buscarCep cepAPIMethods "01310100" ⟨200, exampleBody⟩ ⟨[], 0, [], [], [], []⟩ =
      (.error (.typeError "validarCep"),
       ⟨[], 0, [.typeError "validarCep"], [], [], []⟩) ∧
    buscarCep cepAPIMethodsIntended "01310100" ⟨200, exampleBody⟩
        ⟨[], 0, [], [], [], []⟩ =
      (.ok exampleBody, ⟨[], 1, [], [], [], []⟩) :=
  ⟨rfl, rfl⟩

/-- Claim C6: for every failing call of `buscarCep` and of
`buscarEPreencher`, no form field is written before the error propagates:
`buscarCep` never touches the document, and when `buscarEPreencher` fails
every element that existed before the call still has its original `value`
(the error display may touch `textContent`/`display` of the dedicated
error element only). -/
theorem claim_C6 (methods : List String) (cep : String)
    (campos : List (String × String)) (cb : Option Callback)
    (resp : Response) (st : RunState) (e : CepError) (st' : RunState)
    (h : buscarEPreencher methods cep campos cb resp st = (.error e, st')) :
    (buscarCep methods cep resp st).2.dom = st.dom ∧
    ∀ id, (assocGet st.dom id).isSome = true →
      (assocGet st'.dom id).map Element.value =
        (assocGet st.dom id).map Element.value := by
  have hstate := buscarCep_state methods cep resp st
  refine ⟨hstate.1, ?_⟩
  intro id hid
  unfold buscarEPreencher at h
  rcases hb : buscarCep methods cep resp st with ⟨r, st2⟩
  rw [hb] at h hstate
  cases r with
  | ok dados => simp at h
  | error e2 =>
    simp only [Prod.mk.injEq, Except.error.injEq] at h hstate
    obtain ⟨he, hst⟩ := h
    subst he
    by_cases hcb : cbHasError cb = true
    · rw [if_pos hcb] at hst
      rw [← hst]
      simp only [hstate.1]
    · rw [if_neg hcb] at hst
      rw [← hst]
      simp only [hstate.1]
      exact mostrarErro_value _ _ _ hid

/-- Witness for claim C6: a concrete failing call (the universal
`TypeError` failure) leaves the "cidade" field's value intact. -/
theorem claim_C6_witness :
    (assocGet (buscarEPreencher cepAPIMethods "123" [] none ⟨200, []⟩ stW).2.dom
        "cidade").map Element.value = some "x" :=
  ((claim_C6 cepAPIMethods "123" [] none ⟨200, []⟩ stW (.typeError "validarCep")
      (buscarEPreencher cepAPIMethods "123" [] none ⟨200, []⟩ stW).2 rfl).2
    "cidade" (by decide)).trans (by decide)

/-- Claim C7 as amended: `preencherEndereco` never raises; an element
exists after the call iff it existed before; and the element with a given
id ends with its `value` set to the record's value for the last pair of
the merged binding (caller binding merged over the default identity
mapping) that targets this id and whose record field is present AND
non-empty (JS truthiness); with no such pair the element is untouched.
Pairs whose target element is missing or whose record field is absent or
empty are silently skipped. -/
theorem claim_C7 (dadosCep : Record) (campos : List (String × String))
    (dom : Dom) (id : String) :
    assocGet (preencherEndereco dadosCep campos dom) id =
      (assocGet dom id).map fun e =>
        match lastWrite dadosCep id (mergeObj camposPadrao campos) with
        | some v => { e with value := v }
        | none => e := by
  unfold preencherEndereco
  exact assocGet_preencherLoop dadosCep _ dom id

/-- Claim C7, counterexample: the claim's "if and only if the element
exists and the record field is present" is wrong for a present-but-empty
field: with the record field `cidade` present as `""` and an existing
element "cidade", the code skips the write (JS truthiness of `""` is
false), leaving the old value instead of setting `""`. -/
theorem claim_C7_counterexample :
    preencherEndereco [("cidade", "")] [] [("cidade", ⟨"old", "t", "d"⟩)] =
      [("cidade", ⟨"old", "t", "d"⟩)] ∧
    assocGet ([("cidade", "")] : Record) "cidade" = some "" ∧
    (assocGet ([("cidade", ⟨"old", "t", "d"⟩)] : Dom) "cidade").map Element.value =
      some "old" := by decide

/-- Claim C8: for every failing call of `buscarEPreencher`: with an error
handler supplied, the handler receives exactly the error (one invocation),
`mostrarErro` is not called and the document is untouched; without a
handler, `mostrarErro` is called exactly once with the error's message and
the document becomes `mostrarErro message dom`; in both cases the
re-raised error is the original one from `buscarCep`. -/
theorem claim_C8 (methods : List String) (cep : String)
    (campos : List (String × String)) (cb : Option Callback)
    (resp : Response) (st : RunState) (e : CepError) (st' : RunState)
    (h : buscarEPreencher methods cep campos cb resp st = (.error e, st')) :
    (buscarCep methods cep resp st).1 = .error e ∧
    (cbHasError cb = true →
      st'.errorCalls = st.errorCalls ++ [e] ∧
      st'.mostrarErroCalls = st.mostrarErroCalls ∧
      st'.dom = st.dom) ∧
    (cbHasError cb = false →
      st'.errorCalls = st.errorCalls ∧
      st'.mostrarErroCalls = st.mostrarErroCalls ++ [e.message] ∧
      st'.dom = mostrarErro e.message st.dom) := by
  have hstate := buscarCep_state methods cep resp st
  unfold buscarEPreencher at h
  rcases hb : buscarCep methods cep resp st with ⟨r, st2⟩
  rw [hb] at h hstate
  cases r with
  | ok dados => simp at h
  | error e2 =>
    simp only [Prod.mk.injEq, Except.error.injEq] at h hstate
    obtain ⟨he, hst⟩ := h
    subst he
    refine ⟨rfl, ?_, ?_⟩
    · intro hcb
      rw [if_pos hcb] at hst
      rw [← hst]
      exact ⟨by rw [hstate.2.2.1], by rw [hstate.2.2.2], hstate.1⟩
    · intro hcb
      rw [if_neg (by rw [hcb]; exact fun hh => nomatch hh)] at hst
      rw [← hst]
      exact ⟨by rw [hstate.2.2.1], by rw [hstate.2.2.2], by rw [hstate.1]⟩

/-- Witness for claim C8: a concrete failing call with an error handler
supplied invokes the handler with exactly the raised error. -/
theorem claim_C8_witness :
    (buscarEPreencher cepAPIMethods "123" [] (some ⟨false, true⟩) ⟨200, []⟩
        ⟨[], 0, [], [], [], []⟩).2.errorCalls = [CepError.typeError "validarCep"] :=
  ((claim_C8 cepAPIMethods "123" [] (some ⟨false, true⟩) ⟨200, []⟩
      ⟨[], 0, [], [], [], []⟩ (.typeError "validarCep")
      (buscarEPreencher cepAPIMethods "123" [] (some ⟨false, true⟩) ⟨200, []⟩
        ⟨[], 0, [], [], [], []⟩).2 rfl).2.1 rfl).1.trans rfl

/-- Claim C9, counterexample: the claim's "otherwise returns the stripped
digits unchanged" fails for a 9-digit input: the unanchored replacement
fires on the first 8 digits, so `formatarCep("123456789")` is
"12345-6789", not "123456789". -/
theorem claim_C9_counterexample :
    formatarCep "123456789" = "12345-6789" ∧
    stripNonDigits "123456789" = "123456789" ∧
    ("12345-6789" : String) ≠ "123456789" := by decide

/-- Claim C9 as amended: `formatarCep` strips non-digits; when exactly 8
digits remain it returns the first five digits, a hyphen and the last
three; when fewer than 8 remain it returns the stripped digits unchanged
and raises no error (longer inputs instead get a hyphen inserted after the
fifth digit); in particular "01310100" formats to "01310-100" and "123"
stays "123". -/
theorem claim_C9 (s : String) :
    ((stripNonDigits s).data.length = 8 →
      formatarCep s =
        ⟨(stripNonDigits s).data.take 5 ++ '-' :: (stripNonDigits s).data.drop 5⟩) ∧
    ((stripNonDigits s).data.length < 8 → formatarCep s = stripNonDigits s) ∧
    formatarCep "01310100" = "01310-100" ∧ formatarCep "123" = "123" := by
  refine ⟨?_, ?_, by decide, by decide⟩
  · intro h
    unfold formatarCep
    rw [replace8_digits _ (stripNonDigits_all s), if_pos (by omega)]
  · intro h
    unfold formatarCep
    rw [replace8_digits _ (stripNonDigits_all s), if_neg (by omega)]

/-- Witness for claim C9 at the concrete inputs "01310-100" (8 digits
after stripping) and "1234567" (fewer than 8). -/
theorem claim_C9_witness :
    (stripNonDigits "01310-100").data.length = 8 ∧
    formatarCep "01310-100" = "01310-100" ∧
    (stripNonDigits "1234567").data.length < 8 ∧
    formatarCep "1234567" = stripNonDigits "1234567" :=
  ⟨by decide, ((claim_C9 "01310-100").1 (by decide)).trans (by decide),
   by decide, (claim_C9 "1234567").2.1 (by decide)⟩

/-- Claim C10: for every input whose stripped digit string is longer than
8 digits, `formatarCep` does not return the stripped digits unchanged: the
unanchored replacement inserts a hyphen after the 5th digit of the first
run of 8 consecutive digits (which, the stripped string being all digits,
starts at its first character) and leaves the remaining digits in place;
in particular `formatarCep("123456789")` is "12345-6789". -/
theorem claim_C10 (s : String) (h : 8 < (stripNonDigits s).data.length) :
    formatarCep s =
      ⟨(stripNonDigits s).data.take 5 ++ '-' :: (stripNonDigits s).data.drop 5⟩ ∧
    formatarCep s ≠ stripNonDigits s ∧
    formatarCep "123456789" = "12345-6789" := by
  have heq : formatarCep s =
      ⟨(stripNonDigits s).data.take 5 ++ '-' :: (stripNonDigits s).data.drop 5⟩ := by
    unfold formatarCep
    rw [replace8_digits _ (stripNonDigits_all s), if_pos (by omega)]
  refine ⟨heq, ?_, by decide⟩
  intro hcontra
  have hlen : (formatarCep s).data.length = (stripNonDigits s).data.length := by
    rw [hcontra]
  rw [heq] at hlen
  simp only [List.length_append, List.length_cons, List.length_take,
    List.length_drop] at hlen
  omega

/-- Witness for claim C10 at the concrete input "123456789". -/
theorem claim_C10_witness :
    8 < (stripNonDigits "123456789").data.length ∧
    formatarCep "123456789" = "12345-6789" :=
  ⟨by decide, (claim_C10 "123456789" (by decide)).2.2⟩
